import Mathlib

/-!
Verification of the GlobalTrustHub backend scoring core against its
specification.  Python floats are modelled as exact rationals (`ℚ`) except
where the code calls `math.exp`, which is modelled with `Real.exp` over `ℝ`.
-/

namespace GlobalTrustHub

/-! ### Trust score engine: `ai_ml/trust_score_engine/score_calculator.py` -/

/-- Trust score levels (`TrustLevel` enum), in declaration order. -/
inductive TrustLevel where
  | unverified
  | bronze
  | silver
  | gold
  | platinum
deriving DecidableEq, Repr

/-- Position of a level in the order unverified < bronze < silver < gold < platinum. -/
def levelRank : TrustLevel → ℕ
  | .unverified => 0
  | .bronze => 1
  | .silver => 2
  | .gold => 3
  | .platinum => 4

/-- `LEVEL_THRESHOLDS` dictionary. -/
def LEVEL_THRESHOLDS : TrustLevel → ℚ
  | .unverified => 0
  | .bronze => 200
  | .silver => 400
  | .gold => 600
  | .platinum => 800

/-- `COMPONENT_WEIGHTS` dictionary (keys are the five component names). -/
def COMPONENT_WEIGHTS (component : String) : ℚ :=
  if component = "verification" then 0.25
  else if component = "transactions" then 0.25
  else if component = "reviews" then 0.20
  else if component = "activity" then 0.15
  else if component = "behavior" then 0.15
  else 0

/-- The `breakdown` dictionary built by `calculate_total_score`. -/
structure ScoreBreakdown where
  verification : ℚ
  transactions : ℚ
  reviews : ℚ
  activity : ℚ
  behavior : ℚ
deriving DecidableEq, Repr

/-- Sum of the values of the breakdown dictionary (`sum(breakdown.values())`). -/
def ScoreBreakdown.valuesSum (b : ScoreBreakdown) : ℚ :=
  b.verification + b.transactions + b.reviews + b.activity + b.behavior

/-- `TrustScoreCalculator.calculate_total_score`: weight the five component
scores, scale by 5 to the 0-1000 range, clamp above at 1000. -/
def calculate_total_score (verification_score transaction_score review_score
    activity_score behavior_score : ℚ) : ℚ × ScoreBreakdown :=
  let breakdown : ScoreBreakdown :=
    { verification := verification_score * COMPONENT_WEIGHTS "verification"
      transactions := transaction_score * COMPONENT_WEIGHTS "transactions"
      reviews := review_score * COMPONENT_WEIGHTS "reviews"
      activity := activity_score * COMPONENT_WEIGHTS "activity"
      behavior := behavior_score * COMPONENT_WEIGHTS "behavior" }
  let total := breakdown.valuesSum * 5
  (min total 1000, breakdown)

/-- `TrustScoreCalculator.get_trust_level`: walk the levels from platinum down
and return the first whose threshold the score reaches, else unverified. -/
def get_trust_level (score : ℚ) : TrustLevel :=
  if LEVEL_THRESHOLDS .platinum ≤ score then .platinum
  else if LEVEL_THRESHOLDS .gold ≤ score then .gold
  else if LEVEL_THRESHOLDS .silver ≤ score then .silver
  else if LEVEL_THRESHOLDS .bronze ≤ score then .bronze
  else if LEVEL_THRESHOLDS .unverified ≤ score then .unverified
  else .unverified

end GlobalTrustHub

namespace GlobalTrustHub

/-! ### Decay logic: `ai_ml/trust_score_engine/decay_logic.py` -/

/-- `DecayConfig.INACTIVITY_THRESHOLD_DAYS`. -/
def INACTIVITY_THRESHOLD_DAYS : ℤ := 30

/-- `DecayConfig.INACTIVITY_DECAY_RATE`. -/
def INACTIVITY_DECAY_RATE : ℝ := 0.02

/-- `DecayConfig.MAX_INACTIVITY_DECAY`. -/
def MAX_INACTIVITY_DECAY : ℝ := 0.30

/-- `DecayConfig.DOC_EXPIRY_DECAY`. -/
def DOC_EXPIRY_DECAY : ℚ := 0.10

/-- The reason string built for inactivity decay (the decay-percentage suffix
of the Python message, a formatted float, is elided). -/
def inactivityReason (days_inactive : ℤ) : String :=
  "Inactive for " ++ toString days_inactive ++ " days"

/-- `TrustScoreDecay.calculate_inactivity_decay`, phrased over the elapsed
`days_inactive` that the Python code derives from `utcnow() - last_activity`:
no decay up to the 30-day threshold, then `current_score` times
`1 - exp(-rate * weeks_over_threshold)` capped at the 30% maximum. -/
noncomputable def calculate_inactivity_decay (days_inactive : ℤ)
    (current_score : ℝ) : ℝ × Option String :=
  if days_inactive ≤ INACTIVITY_THRESHOLD_DAYS then (0, none)
  else
    let weeks_over : ℝ := ((days_inactive : ℝ) - (INACTIVITY_THRESHOLD_DAYS : ℝ)) / 7
    let decay_factor := min (1 - Real.exp (-INACTIVITY_DECAY_RATE * weeks_over))
      MAX_INACTIVITY_DECAY
    (current_score * decay_factor, some (inactivityReason days_inactive))

/-- `calculate_inactivity_decay` as the code exposes it: `days_inactive` is
the difference between the current time and the last activity, both modelled
as whole days. -/
noncomputable def calculate_inactivity_decay_at (now last_activity : ℤ)
    (current_score : ℝ) : ℝ × Option String :=
  calculate_inactivity_decay (now - last_activity) current_score

/-- A document record as read by `calculate_document_expiry_decay`:
`expiry_date` may be absent, and is modelled as a timestamp in `ℤ`. -/
structure VerificationDocument where
  expiry_date : Option ℤ
  docType : String
deriving DecidableEq, Repr

/-- One entry of the `expired_docs` list built by
`calculate_document_expiry_decay`. -/
structure ExpiredDocEntry where
  document_type : String
  expired_at : ℤ
  decay_applied : ℚ
deriving DecidableEq, Repr

/-- `TrustScoreDecay.calculate_document_expiry_decay`: walk the documents,
and for each one whose expiry date is present and strictly before `now`, add
`current_score * DOC_EXPIRY_DECAY` to the total and record the document. -/
def calculate_document_expiry_decay (now : ℤ) (current_score : ℚ) :
    List VerificationDocument → ℚ × List ExpiredDocEntry
  | [] => (0, [])
  | doc :: rest =>
    let r := calculate_document_expiry_decay now current_score rest
    match doc.expiry_date with
    | none => r
    | some e =>
      if e < now then
        (current_score * DOC_EXPIRY_DECAY + r.1,
         ⟨doc.docType, e, current_score * DOC_EXPIRY_DECAY⟩ :: r.2)
      else r

/-- Number of documents in the list whose expiry date is present and strictly
before `now`. -/
def expiredCount (now : ℤ) (documents : List VerificationDocument) : ℕ :=
  (documents.filter fun d =>
    match d.expiry_date with
    | some e => decide (e < now)
    | none => false).length

/-! ### Confidence scoring: `ai_ml/document_verification/confidence_scoring.py` -/

/-- Verification decision returned by `ConfidenceScorer._make_decision`. -/
inductive Decision where
  | approve
  | reject
  | review
deriving DecidableEq, Repr

/-- The mutable threshold state of a `ConfidenceScorer` instance. -/
structure ConfidenceScorerState where
  auto_approve_threshold : ℚ
  auto_reject_threshold : ℚ
  review_required_min : ℚ
deriving DecidableEq, Repr

/-- `ConfidenceScorer.__init__`: thresholds before any adjustment. -/
def confidenceScorerInit : ConfidenceScorerState :=
  ⟨0.95, 0.3, 0.6⟩

/-- `ConfidenceScorer._make_decision`: forgery detection forces rejection;
otherwise compare the overall score with the instance thresholds. -/
def make_decision (st : ConfidenceScorerState) (score : ℚ)
    (forgery_detected : Bool) : Decision :=
  if forgery_detected then .reject
  else if st.auto_approve_threshold ≤ score then .approve
  else if score < st.auto_reject_threshold then .reject
  else .review

/-- `ConfidenceScorer.adjust_thresholds`: set the instance thresholds from
the document type's risk class, leaving `review_required_min` unchanged. -/
def adjust_thresholds (document_type : String)
    (st : ConfidenceScorerState) : ConfidenceScorerState :=
  if document_type ∈ ["passport", "cnic", "bank_statement"] then
    ⟨0.98, 0.4, st.review_required_min⟩
  else if document_type ∈ ["degree", "experience_letter"] then
    ⟨0.92, 0.35, st.review_required_min⟩
  else
    ⟨0.90, 0.3, st.review_required_min⟩

/-- The pair of decision thresholds of a scorer state. -/
def thresholdsOf (st : ConfidenceScorerState) : ℚ × ℚ :=
  (st.auto_approve_threshold, st.auto_reject_threshold)

/-! ### Scam language analysis: `ai_ml/scam_language_analysis/nlp_preprocessing.py`
and `model.py`.  The regex layer (`detect_patterns`) maps a text to a list of
`(category, matched_text)` pairs; scoring is verified over every possible
output of that layer. -/

/-- The seven keys of `SCAM_PATTERNS` / `CATEGORY_WEIGHTS`. -/
inductive ScamCategory where
  | urgency
  | false_guarantee
  | suspicious_payment
  | too_good
  | pressure
  | secrecy
  | impersonation
deriving DecidableEq, Repr

/-- `CATEGORY_WEIGHTS` dictionary. -/
def CATEGORY_WEIGHTS : ScamCategory → ℚ
  | .urgency => 1.0
  | .false_guarantee => 1.5
  | .suspicious_payment => 2.0
  | .too_good => 1.5
  | .pressure => 1.0
  | .secrecy => 1.5
  | .impersonation => 1.2

/-- All categories, in the declaration order of `SCAM_PATTERNS`. -/
def allScamCategories : List ScamCategory :=
  [.urgency, .false_guarantee, .suspicious_payment, .too_good,
   .pressure, .secrecy, .impersonation]

/-- One entry of the `reasons` list built by `calculate_scam_score`. -/
structure ScamReason where
  category : ScamCategory
  hits : List String
  contribution : ℚ
deriving DecidableEq, Repr

/-- The per-category contribution `min(hit_count * weight * 0.1, 0.3)`. -/
def categoryContribution (c : ScamCategory) (hit_count : ℕ) : ℚ :=
  min ((hit_count : ℚ) * CATEGORY_WEIGHTS c * 0.1) 0.3

/-- Record one `(category, matched_text)` pair in the `category_hits`
dictionary (an association list with Python-dict insertion order). -/
def addMatch (category_hits : List (ScamCategory × List String))
    (c : ScamCategory) (t : String) : List (ScamCategory × List String) :=
  match category_hits with
  | [] => [(c, [t])]
  | (c', hs) :: rest =>
    if c' = c then (c', hs ++ [t]) :: rest
    else (c', hs) :: addMatch rest c t

/-- The `category_hits` dictionary built by the first loop of
`calculate_scam_score`. -/
def groupMatches (ms : List (ScamCategory × String)) :
    List (ScamCategory × List String) :=
  ms.foldl (fun acc m => addMatch acc m.1 m.2) []

/-- Dictionary lookup: the hit list stored for `c`, `[]` when absent. -/
def hitsIn : List (ScamCategory × List String) → ScamCategory → List String
  | [], _ => []
  | (c', hs) :: rest, c => if c' = c then hs else hitsIn rest c

/-- `calculate_scam_score` over the detected match list: empty input short
circuits to `(0.0, [])`; otherwise group hits by category, add the capped
per-category contributions, and clamp the sum at 1. -/
def calculate_scam_score (ms : List (ScamCategory × String)) :
    ℚ × List ScamReason :=
  if ms.isEmpty then (0, [])
  else
    let category_hits := groupMatches ms
    let weighted_sum :=
      (category_hits.map fun p => categoryContribution p.1 p.2.length).sum
    let reasons : List ScamReason :=
      category_hits.map fun p => ⟨p.1, p.2, categoryContribution p.1 p.2.length⟩
    (min weighted_sum 1, reasons)

/-- Number of detected matches whose category is `c`. -/
def countOf (c : ScamCategory) (ms : List (ScamCategory × String)) : ℕ :=
  (ms.filter fun m => m.1 = c).length

/-- The score formula as the specification words it: `min` over `1.0` of the
sum, over the categories with at least one match, of
`min(hit_count * category_weight * 0.1, 0.3)`. -/
def specScamScore (ms : List (ScamCategory × String)) : ℚ :=
  min ((allScamCategories.filter fun c => 0 < countOf c ms).map
    fun c => categoryContribution c (countOf c ms)).sum 1

/-- `ScamDetectionModel.predict`'s reported `scam_probability`: the rule score
weighted 0.6 plus the (placeholder) ML score weighted 0.4, where the ML score
is the rule score in both the loaded and non-loaded branches. -/
def predict_scam_probability (model_loaded : Bool)
    (ms : List (ScamCategory × String)) : ℚ :=
  let rule_score := (calculate_scam_score ms).1
  let ml_score := if model_loaded then rule_score else rule_score
  rule_score * 0.6 + ml_score * 0.4

/-- Evaluation of the weight table at its five keys. -/
theorem COMPONENT_WEIGHTS_eval :
    COMPONENT_WEIGHTS "verification" = 0.25 ∧
    COMPONENT_WEIGHTS "transactions" = 0.25 ∧
    COMPONENT_WEIGHTS "reviews" = 0.20 ∧
    COMPONENT_WEIGHTS "activity" = 0.15 ∧
    COMPONENT_WEIGHTS "behavior" = 0.15 := by
  refine ⟨?_, ?_, ?_, ?_, ?_⟩ <;> rfl

/-- C1: `calculate_total_score` maps each component to its input times the
fixed weight (verification 0.25, transactions 0.25, reviews 0.20,
activity 0.15, behavior 0.15), and the total is the sum of the breakdown
values times 5 clamped above at 1000; at inputs (150,100,80,60,100) it
returns total 512.5 with breakdown (37.5, 25, 16, 9, 15). -/
theorem calculate_total_score_spec :
    (∀ v t r a b : ℚ,
      calculate_total_score v t r a b =
        (min ((v * 0.25 + t * 0.25 + r * 0.20 + a * 0.15 + b * 0.15) * 5) 1000,
         ⟨v * 0.25, t * 0.25, r * 0.20, a * 0.15, b * 0.15⟩)) ∧
    calculate_total_score 150 100 80 60 100 =
      (512.5, ⟨37.5, 25, 16, 9, 15⟩) := by
  obtain ⟨w1, w2, w3, w4, w5⟩ := COMPONENT_WEIGHTS_eval
  constructor
  · intro v t r a b
    simp only [calculate_total_score, w1, w2, w3, w4, w5, ScoreBreakdown.valuesSum]
  · simp only [calculate_total_score, w1, w2, w3, w4, w5, ScoreBreakdown.valuesSum]
    norm_num

/-- C2: the total returned by `calculate_total_score` is monotone in the
component scores: raising any component (the others held fixed, here stated
jointly) cannot decrease the total. -/
theorem calculate_total_score_monotone
    (v t r a b v' t' r' a' b' : ℚ)
    (hv : v ≤ v') (ht : t ≤ t') (hr : r ≤ r') (ha : a ≤ a') (hb : b ≤ b') :
    (calculate_total_score v t r a b).1 ≤ (calculate_total_score v' t' r' a' b').1 := by
  obtain ⟨w1, w2, w3, w4, w5⟩ := COMPONENT_WEIGHTS_eval
  simp only [calculate_total_score, w1, w2, w3, w4, w5, ScoreBreakdown.valuesSum]
  refine min_le_min ?_ le_rfl
  nlinarith

/-- Witness for C2 at a concrete pair of component assignments. -/
theorem calculate_total_score_monotone_witness :
    (calculate_total_score 150 100 80 60 100).1 ≤
      (calculate_total_score 160 100 80 60 100).1 :=
  calculate_total_score_monotone 150 100 80 60 100 160 100 80 60 100
    (by norm_num) le_rfl le_rfl le_rfl le_rfl

/-- C3: `get_trust_level` is a non-decreasing step function of the score with
thresholds 0/200/400/600/800, and `get_trust_level 400 = silver`,
`get_trust_level 399 = bronze`. -/
theorem get_trust_level_spec :
    (∀ s1 s2 : ℚ, s1 ≤ s2 →
      levelRank (get_trust_level s1) ≤ levelRank (get_trust_level s2)) ∧
    get_trust_level 400 = .silver ∧ get_trust_level 399 = .bronze := by
  refine ⟨?_, by norm_num [get_trust_level, LEVEL_THRESHOLDS], by
    norm_num [get_trust_level, LEVEL_THRESHOLDS]⟩
  intro s1 s2 h
  simp only [get_trust_level, LEVEL_THRESHOLDS]
  split_ifs <;> simp [levelRank] <;> linarith

/-- Witness for C3 at scores 399 ≤ 400. -/
theorem get_trust_level_spec_witness :
    levelRank (get_trust_level 399) ≤ levelRank (get_trust_level 400) :=
  get_trust_level_spec.1 399 400 (by norm_num)

/-- C4 (counterexample to the claim as stated): with `days_inactive = 31 > 30`
the decay amount is not always positive — at `current_score = 0` it is `0` —
and it is not always capped by `current_score * 0.30` — at
`current_score = -70` the decay amount exceeds `-70 * 0.30`. -/
theorem calculate_inactivity_decay_counterexample :
    ((30:ℤ) < 31 ∧ (calculate_inactivity_decay 31 (0:ℝ)).1 = 0) ∧
    ¬ (calculate_inactivity_decay 31 (-70:ℝ)).1 ≤ (-70) * 0.30 := by
  have hnot : ¬ (31:ℤ) ≤ INACTIVITY_THRESHOLD_DAYS := by
    simp [INACTIVITY_THRESHOLD_DAYS]
  refine ⟨⟨by norm_num, ?_⟩, ?_⟩
  · simp [calculate_inactivity_decay, hnot]
  · simp only [calculate_inactivity_decay, hnot, if_false]
    have hexp : (349:ℝ)/350 ≤ Real.exp (-(1/350)) := by
      have := Real.add_one_le_exp (-(1/350 : ℝ))
      linarith
    have harg : -INACTIVITY_DECAY_RATE *
        ((((31:ℤ):ℝ) - (INACTIVITY_THRESHOLD_DAYS : ℝ)) / 7) = -(1/350) := by
      simp [INACTIVITY_DECAY_RATE, INACTIVITY_THRESHOLD_DAYS]
      norm_num
    rw [harg]
    have hmin : min (1 - Real.exp (-(1/350))) MAX_INACTIVITY_DECAY <
        (3:ℝ)/10 := by
      calc min (1 - Real.exp (-(1/350))) MAX_INACTIVITY_DECAY
          ≤ 1 - Real.exp (-(1/350)) := min_le_left _ _
        _ < 3/10 := by linarith
    push_neg
    nlinarith [hmin]

/-- C4 (amended): `calculate_inactivity_decay` returns `(0, none)` whenever
`days_inactive ≤ 30`; for `days_inactive > 30` the decay amount equals
`current_score * min (1 - exp (-0.02 * (days_inactive - 30) / 7)) 0.30`, is
positive whenever `current_score > 0`, and is at most `current_score * 0.30`
whenever `current_score ≥ 0`. -/
theorem calculate_inactivity_decay_spec (days_inactive : ℤ)
    (current_score : ℝ) :
    (days_inactive ≤ 30 →
      calculate_inactivity_decay days_inactive current_score = (0, none)) ∧
    (30 < days_inactive →
      (calculate_inactivity_decay days_inactive current_score).1 =
        current_score *
          min (1 - Real.exp (-(0.02) * (((days_inactive : ℝ) - 30) / 7))) 0.30 ∧
      (0 < current_score →
        0 < (calculate_inactivity_decay days_inactive current_score).1) ∧
      (0 ≤ current_score →
        (calculate_inactivity_decay days_inactive current_score).1 ≤
          current_score * 0.30)) := by
  constructor
  · intro h
    have h' : days_inactive ≤ INACTIVITY_THRESHOLD_DAYS := h
    simp [calculate_inactivity_decay, h']
  · intro h
    have hnot : ¬ days_inactive ≤ INACTIVITY_THRESHOLD_DAYS := by
      simp only [INACTIVITY_THRESHOLD_DAYS]
      omega
    have hnot30 : ¬ days_inactive ≤ 30 := by omega
    have hcast : (30:ℝ) < (days_inactive : ℝ) := by exact_mod_cast h
    have hweeks : (0:ℝ) < ((days_inactive : ℝ) - 30) / 7 := by linarith
    have hargneg : -INACTIVITY_DECAY_RATE *
        (((days_inactive : ℝ) - (INACTIVITY_THRESHOLD_DAYS : ℝ)) / 7) < 0 := by
      simp only [INACTIVITY_DECAY_RATE, INACTIVITY_THRESHOLD_DAYS]
      push_cast
      nlinarith
    have hexplt : Real.exp (-INACTIVITY_DECAY_RATE *
        (((days_inactive : ℝ) - (INACTIVITY_THRESHOLD_DAYS : ℝ)) / 7)) < 1 :=
      Real.exp_lt_one_iff.mpr hargneg
    have hminpos : 0 < min (1 - Real.exp (-INACTIVITY_DECAY_RATE *
        (((days_inactive : ℝ) - (INACTIVITY_THRESHOLD_DAYS : ℝ)) / 7)))
        MAX_INACTIVITY_DECAY := by
      refine lt_min (by linarith) ?_
      simp only [MAX_INACTIVITY_DECAY]
      norm_num
    refine ⟨?_, fun hpos => ?_, fun hnonneg => ?_⟩
    · simp only [calculate_inactivity_decay, hnot, hnot30, if_false,
        INACTIVITY_DECAY_RATE, INACTIVITY_THRESHOLD_DAYS, MAX_INACTIVITY_DECAY]
      push_cast
      norm_num
    · simp only [calculate_inactivity_decay, hnot, if_false]
      exact mul_pos hpos hminpos
    · simp only [calculate_inactivity_decay, hnot, if_false]
      calc current_score * min (1 - Real.exp (-INACTIVITY_DECAY_RATE *
              (((days_inactive : ℝ) - (INACTIVITY_THRESHOLD_DAYS : ℝ)) / 7)))
              MAX_INACTIVITY_DECAY
          ≤ current_score * MAX_INACTIVITY_DECAY :=
            mul_le_mul_of_nonneg_left (min_le_right _ _) hnonneg
        _ ≤ current_score * 0.30 := by
            rw [MAX_INACTIVITY_DECAY]

/-- Witness for C4 (amended) at `days_inactive = 37`, `current_score = 100`. -/
theorem calculate_inactivity_decay_spec_witness :
    0 < (calculate_inactivity_decay 37 (100:ℝ)).1 ∧
    (calculate_inactivity_decay 37 (100:ℝ)).1 ≤ 100 * 0.30 :=
  ⟨(((calculate_inactivity_decay_spec 37 100).2 (by norm_num)).2.1 (by norm_num)),
   (((calculate_inactivity_decay_spec 37 100).2 (by norm_num)).2.2 (by norm_num))⟩

/-- C7: the document-expiry decay equals `current_score * 0.10` per expired
document with no cap, so it grows linearly with the expired-document count,
and for any positive score it exceeds the whole score once at least 11
documents are expired. -/
theorem calculate_document_expiry_decay_spec (now : ℤ) (current_score : ℚ)
    (documents : List VerificationDocument) :
    (calculate_document_expiry_decay now current_score documents).1 =
      current_score * 0.10 * (expiredCount now documents : ℚ) ∧
    (0 < current_score → 11 ≤ expiredCount now documents →
      current_score <
        (calculate_document_expiry_decay now current_score documents).1) := by
  have hmain : (calculate_document_expiry_decay now current_score documents).1 =
      current_score * 0.10 * (expiredCount now documents : ℚ) := by
    induction documents with
    | nil => simp [calculate_document_expiry_decay, expiredCount]
    | cons d rest ih =>
      rcases hd : d.expiry_date with _ | e
      · simpa [calculate_document_expiry_decay, expiredCount, hd] using ih
      · by_cases he : e < now
        · simp only [calculate_document_expiry_decay, expiredCount, hd, he,
            if_true, List.filter_cons, decide_eq_true_eq] at ih ⊢
          simp only [he, decide_True, List.length_cons]
          push_cast
          rw [ih]
          simp only [DOC_EXPIRY_DECAY, expiredCount]
          ring
        · simp only [calculate_document_expiry_decay, expiredCount, hd,
            List.filter_cons] at ih ⊢
          simpa [he] using ih
  refine ⟨hmain, fun hpos hcount => ?_⟩
  rw [hmain]
  have hcast : (11:ℚ) ≤ (expiredCount now documents : ℚ) := by
    exact_mod_cast hcount
  nlinarith

/-- Witness for C7: 11 documents expired before time 1 push the decay above a
score of 5. -/
theorem calculate_document_expiry_decay_spec_witness :
    (5:ℚ) < (calculate_document_expiry_decay 1 5
      (List.replicate 11 ⟨some 0, "cnic"⟩)).1 :=
  (calculate_document_expiry_decay_spec 1 5 _).2 (by norm_num) (by decide)

/-- C5: with the scorer's thresholds (which always satisfy
`auto_reject_threshold ≤ auto_approve_threshold`), forgery detection forces
`reject`; otherwise the decision is `approve` iff the score reaches the
auto-approve threshold, `reject` iff it is below the auto-reject threshold,
and `review` in every remaining case. -/
theorem make_decision_spec (st : ConfidenceScorerState) (score : ℚ)
    (horder : st.auto_reject_threshold ≤ st.auto_approve_threshold) :
    make_decision st score true = .reject ∧
    (make_decision st score false = .approve ↔
      st.auto_approve_threshold ≤ score) ∧
    (make_decision st score false = .reject ↔
      score < st.auto_reject_threshold) ∧
    (make_decision st score false = .review ↔
      st.auto_reject_threshold ≤ score ∧ score < st.auto_approve_threshold) := by
  by_cases h1 : st.auto_approve_threshold ≤ score
  · have hdec : make_decision st score false = .approve := by
      simp only [make_decision, Bool.false_eq_true, if_false, if_pos h1]
    refine ⟨by simp [make_decision], ?_, ?_, ?_⟩
    · rw [hdec]
      exact ⟨fun _ => h1, fun _ => rfl⟩
    · rw [hdec]
      exact ⟨fun hcon => Decision.noConfusion hcon,
        fun hlt => absurd (hlt.trans_le (horder.trans h1)) (lt_irrefl _)⟩
    · rw [hdec]
      exact ⟨fun hcon => Decision.noConfusion hcon,
        fun hc => absurd h1 (not_le.mpr hc.2)⟩
  · by_cases h2 : score < st.auto_reject_threshold
    · have hdec : make_decision st score false = .reject := by
        simp only [make_decision, Bool.false_eq_true, if_false, if_neg h1,
          if_pos h2]
      refine ⟨by simp [make_decision], ?_, ?_, ?_⟩
      · rw [hdec]
        exact ⟨fun hcon => Decision.noConfusion hcon, fun hge => absurd hge h1⟩
      · rw [hdec]
        exact ⟨fun _ => h2, fun _ => rfl⟩
      · rw [hdec]
        exact ⟨fun hcon => Decision.noConfusion hcon,
          fun hc => absurd h2 (not_lt.mpr hc.1)⟩
    · have hdec : make_decision st score false = .review := by
        simp only [make_decision, Bool.false_eq_true, if_false, if_neg h1,
          if_neg h2]
      refine ⟨by simp [make_decision], ?_, ?_, ?_⟩
      · rw [hdec]
        exact ⟨fun hcon => Decision.noConfusion hcon, fun hge => absurd hge h1⟩
      · rw [hdec]
        exact ⟨fun hcon => Decision.noConfusion hcon, fun hlt => absurd hlt h2⟩
      · rw [hdec]
        exact ⟨fun _ => ⟨not_lt.mp h2, not_le.mp h1⟩, fun _ => rfl⟩

/-- Witness for C5: the initial thresholds order correctly and a score of
0.96 is auto-approved. -/
theorem make_decision_spec_witness :
    make_decision confidenceScorerInit 0.96 false = .approve :=
  ((make_decision_spec confidenceScorerInit 0.96
      (by norm_num [confidenceScorerInit])).2.1).mpr
    (by norm_num [confidenceScorerInit])

/-- C6 (counterexample to the claim as stated): before any call to
`adjust_thresholds`, the thresholds set by `__init__` are (0.95, 0.3), not
the claimed default (0.90, 0.30). -/
theorem adjust_thresholds_counterexample :
    thresholdsOf confidenceScorerInit ≠ (0.90, 0.30) := by
  simp only [thresholdsOf, confidenceScorerInit, ne_eq, Prod.mk.injEq]
  intro hc
  have := hc.1
  norm_num at this

/-- C6 (amended): `adjust_thresholds` installs (0.98, 0.4) for the high-risk
types passport/cnic/bank_statement, (0.92, 0.35) for the medium-risk types
degree/experience_letter, and (0.90, 0.30) for every other document type;
with no adjustment the `__init__` thresholds are (0.95, 0.30). -/
theorem adjust_thresholds_spec (document_type : String)
    (st : ConfidenceScorerState) :
    (document_type ∈ ["passport", "cnic", "bank_statement"] →
      thresholdsOf (adjust_thresholds document_type st) = (0.98, 0.4)) ∧
    (document_type ∈ ["degree", "experience_letter"] →
      thresholdsOf (adjust_thresholds document_type st) = (0.92, 0.35)) ∧
    (document_type ∉ ["passport", "cnic", "bank_statement"] →
      document_type ∉ ["degree", "experience_letter"] →
      thresholdsOf (adjust_thresholds document_type st) = (0.90, 0.30)) ∧
    thresholdsOf confidenceScorerInit = (0.95, 0.30) := by
  refine ⟨fun h => ?_, fun h => ?_, fun h1 h2 => ?_, ?_⟩
  · simp only [adjust_thresholds]
    rw [if_pos h]
    rfl
  · have hnothigh : document_type ∉ ["passport", "cnic", "bank_statement"] := by
      simp only [List.mem_cons, List.mem_singleton] at h ⊢
      rcases h with h | h | h
      all_goals first
        | (subst h; decide)
        | exact absurd h (List.not_mem_nil _)
    simp only [adjust_thresholds]
    rw [if_neg hnothigh, if_pos h]
    rfl
  · simp only [adjust_thresholds]
    rw [if_neg h1, if_neg h2]
    simp only [thresholdsOf, Prod.mk.injEq]
    norm_num
  · simp only [thresholdsOf, confidenceScorerInit, Prod.mk.injEq]
    norm_num

/-- Witness for C6 (amended) at the high-risk type `passport`. -/
theorem adjust_thresholds_spec_witness :
    thresholdsOf (adjust_thresholds "passport" confidenceScorerInit) =
      (0.98, 0.4) :=
  (adjust_thresholds_spec "passport" confidenceScorerInit).1 (by decide)

/-- C9 (counterexample to the claim as stated): the verification confidence
scorer is not free of hidden state — two calls of the decision procedure with
identical arguments (score 0.96, no forgery) return different decisions
before and after `adjust_thresholds "passport"` has mutated the instance
thresholds. -/
theorem scorer_purity_counterexample :
    make_decision confidenceScorerInit 0.96 false ≠
      make_decision (adjust_thresholds "passport" confidenceScorerInit)
        0.96 false := by
  have hadj : adjust_thresholds "passport" confidenceScorerInit =
      ⟨0.98, 0.4, 0.6⟩ := by
    simp only [adjust_thresholds]
    rw [if_pos (by decide)]
    rfl
  have h1 : make_decision confidenceScorerInit 0.96 false = .approve := by
    simp only [make_decision, confidenceScorerInit, Bool.false_eq_true,
      if_false]
    rw [if_pos (by norm_num)]
  have h2 : make_decision (adjust_thresholds "passport" confidenceScorerInit)
      0.96 false = .review := by
    rw [hadj]
    simp only [make_decision, Bool.false_eq_true, if_false]
    rw [if_neg (by norm_num), if_neg (by norm_num)]
  rw [h1, h2]
  exact fun hcon => Decision.noConfusion hcon

/-- C9 (amended): the scoring functions are deterministic in their explicit
arguments together with the implicit inputs the code reads — the inactivity
decay depends on the wall clock only through the number of days elapsed
since the last activity, and the verification decision depends on the
scorer instance only through its two decision thresholds. -/
theorem scorer_state_dependence_spec :
    (∀ (now1 last1 now2 last2 : ℤ) (score : ℝ),
      now1 - last1 = now2 - last2 →
      calculate_inactivity_decay_at now1 last1 score =
        calculate_inactivity_decay_at now2 last2 score) ∧
    (∀ (st1 st2 : ConfidenceScorerState) (score : ℚ) (f : Bool),
      st1.auto_approve_threshold = st2.auto_approve_threshold →
      st1.auto_reject_threshold = st2.auto_reject_threshold →
      make_decision st1 score f = make_decision st2 score f) := by
  constructor
  · intro n1 l1 n2 l2 s h
    simp only [calculate_inactivity_decay_at, h]
  · intro st1 st2 score f h1 h2
    simp only [make_decision, h1, h2]

/-- Witness for C9 (amended): equal elapsed days give equal decay, and two
states differing only in `review_required_min` give the same decision. -/
theorem scorer_state_dependence_spec_witness :
    calculate_inactivity_decay_at 100 60 (50:ℝ) =
      calculate_inactivity_decay_at 140 100 (50:ℝ) ∧
    make_decision ⟨0.95, 0.3, 0.6⟩ (0.7:ℚ) false =
      make_decision ⟨0.95, 0.3, 0.9⟩ (0.7:ℚ) false :=
  ⟨scorer_state_dependence_spec.1 100 60 140 100 50 (by norm_num),
   scorer_state_dependence_spec.2 ⟨0.95, 0.3, 0.6⟩ ⟨0.95, 0.3, 0.9⟩ 0.7 false
     rfl rfl⟩

/-- A category absent from the dictionary has an empty hit list. -/
theorem hitsIn_of_not_mem (a : List (ScamCategory × List String))
    (c : ScamCategory) (h : c ∉ a.map Prod.fst) : hitsIn a c = [] := by
  induction a with
  | nil => rfl
  | cons p rest ih =>
    obtain ⟨c', hs⟩ := p
    simp only [List.map_cons, List.mem_cons] at h
    push_neg at h
    simp only [hitsIn]
    rw [if_neg fun heq => h.1 heq.symm]
    exact ih h.2

/-- Effect of `addMatch` on each stored hit list. -/
theorem addMatch_hitsIn (a : List (ScamCategory × List String))
    (c : ScamCategory) (t : String) (c' : ScamCategory) :
    hitsIn (addMatch a c t) c' =
      if c' = c then hitsIn a c' ++ [t] else hitsIn a c' := by
  induction a with
  | nil =>
    by_cases h : c' = c
    · subst h
      simp [addMatch, hitsIn]
    · simp only [addMatch, hitsIn]
      rw [if_neg fun heq => h heq.symm, if_neg h]
  | cons p rest ih =>
    obtain ⟨c0, hs⟩ := p
    have hadd : addMatch ((c0, hs) :: rest) c t =
        if c0 = c then (c0, hs ++ [t]) :: rest
        else (c0, hs) :: addMatch rest c t := rfl
    have hcons : ∀ (hs' : List String) (r : List (ScamCategory × List String)),
        hitsIn ((c0, hs') :: r) c' = if c0 = c' then hs' else hitsIn r c' :=
      fun _ _ => rfl
    by_cases h0 : c0 = c
    · subst h0
      rw [hadd, if_pos rfl, hcons, hcons]
      by_cases h' : c0 = c'
      · subst h'
        rw [if_pos rfl, if_pos rfl, if_pos rfl]
      · rw [if_neg h', if_neg h',
          if_neg fun heq : c' = c0 => h' heq.symm]
    · rw [hadd, if_neg h0, hcons, hcons]
      by_cases h' : c0 = c'
      · subst h'
        rw [if_pos rfl, if_pos rfl,
          if_neg fun heq : c0 = c => h0 heq]
      · rw [if_neg h', if_neg h', ih]

/-- Effect of `addMatch` on the key list. -/
theorem addMatch_keys (a : List (ScamCategory × List String))
    (c : ScamCategory) (t : String) :
    (addMatch a c t).map Prod.fst =
      if c ∈ a.map Prod.fst then a.map Prod.fst
      else a.map Prod.fst ++ [c] := by
  induction a with
  | nil => simp [addMatch]
  | cons p rest ih =>
    obtain ⟨c0, hs⟩ := p
    by_cases h0 : c0 = c
    · subst h0
      simp [addMatch]
    · simp only [addMatch]
      rw [if_neg h0]
      simp only [List.map_cons, List.mem_cons, ih]
      by_cases hmem : c ∈ rest.map Prod.fst
      · rw [if_pos hmem, if_pos (Or.inr hmem)]
      · rw [if_neg hmem, if_neg ?_, List.cons_append]
        intro hc
        rcases hc with hc | hc
        · exact h0 hc.symm
        · exact hmem hc

/-- `addMatch` preserves key distinctness. -/
theorem addMatch_nodup (a : List (ScamCategory × List String))
    (c : ScamCategory) (t : String) (h : (a.map Prod.fst).Nodup) :
    ((addMatch a c t).map Prod.fst).Nodup := by
  rw [addMatch_keys]
  by_cases hmem : c ∈ a.map Prod.fst
  · rwa [if_pos hmem]
  · rw [if_neg hmem]
    rw [List.nodup_append]
    refine ⟨h, List.nodup_singleton c, ?_⟩
    intro x hx hxc
    simp only [List.mem_singleton] at hxc
    subst hxc
    exact hmem hx

/-- The dictionary built by the grouping loop stores, for each category,
exactly the matched texts of that category, in order. -/
theorem groupMatches_hitsIn (ms : List (ScamCategory × String))
    (acc : List (ScamCategory × List String)) (c : ScamCategory) :
    hitsIn (ms.foldl (fun a m => addMatch a m.1 m.2) acc) c =
      hitsIn acc c ++ (ms.filter fun m => m.1 = c).map Prod.snd := by
  induction ms generalizing acc with
  | nil => simp
  | cons m ms ih =>
    simp only [List.foldl_cons, List.filter_cons]
    rw [ih, addMatch_hitsIn]
    by_cases h : m.1 = c
    · rw [if_pos h.symm]
      simp [h, List.append_assoc]
    · rw [if_neg fun heq => h heq.symm]
      simp [h]

/-- The keys of the grouping dictionary are distinct. -/
theorem groupMatches_nodup (ms : List (ScamCategory × String)) :
    ((groupMatches ms).map Prod.fst).Nodup := by
  have hgen : ∀ (ms : List (ScamCategory × String))
      (acc : List (ScamCategory × List String)),
      (acc.map Prod.fst).Nodup →
      ((ms.foldl (fun a m => addMatch a m.1 m.2) acc).map Prod.fst).Nodup := by
    intro ms
    induction ms with
    | nil => exact fun acc h => h
    | cons m ms ih =>
      intro acc h
      exact ih _ (addMatch_nodup acc m.1 m.2 h)
  exact hgen ms [] (by simp)

/-- A category with no hits contributes nothing. -/
theorem categoryContribution_zero (c : ScamCategory) :
    categoryContribution c 0 = 0 := by
  cases c <;> simp [categoryContribution, CATEGORY_WEIGHTS, min_def] <;> norm_num

/-- Contributions are non-negative. -/
theorem categoryContribution_nonneg (c : ScamCategory) (n : ℕ) :
    0 ≤ categoryContribution c n := by
  refine le_min ?_ (by norm_num)
  cases c <;> simp only [CATEGORY_WEIGHTS, categoryContribution] <;> positivity

/-- With distinct keys, the summed contributions of the dictionary equal the
sum over all seven categories of the contribution of their stored hits. -/
theorem sumContrib_eq (a : List (ScamCategory × List String))
    (hnd : (a.map Prod.fst).Nodup) :
    (a.map fun p => categoryContribution p.1 p.2.length).sum =
      (allScamCategories.map
        fun c => categoryContribution c (hitsIn a c).length).sum := by
  induction a with
  | nil =>
    simp [allScamCategories, hitsIn, categoryContribution_zero]
  | cons p rest ih =>
    obtain ⟨c0, hs⟩ := p
    simp only [List.map_cons, List.nodup_cons] at hnd
    have hrest0 : hitsIn rest c0 = [] := hitsIn_of_not_mem rest c0 hnd.1
    have ihr := ih hnd.2
    simp only [List.map_cons, List.sum_cons, ihr]
    have hcons : ∀ c : ScamCategory,
        hitsIn ((c0, hs) :: rest) c = if c0 = c then hs else hitsIn rest c := by
      intro c
      rfl
    simp only [hcons]
    cases c0 <;>
      simp [allScamCategories, hrest0, categoryContribution_zero] <;> ring

/-- Dropping zero-contribution categories does not change the sum. -/
theorem sum_filter_contrib (ms : List (ScamCategory × String))
    (l : List ScamCategory) :
    ((l.filter fun c => 0 < countOf c ms).map
      fun c => categoryContribution c (countOf c ms)).sum =
    (l.map fun c => categoryContribution c (countOf c ms)).sum := by
  induction l with
  | nil => simp
  | cons c l ih =>
    by_cases h : 0 < countOf c ms
    · simp [List.filter_cons, h, ih]
    · have hz : countOf c ms = 0 := by omega
      simp [List.filter_cons, h, ih, hz, categoryContribution_zero]

/-- C8: for every list of detected matches, the pattern-matcher score equals
`min` over `1.0` of the sum, over categories with at least one match, of
`min(hit_count * category_weight * 0.1, 0.3)`; the score lies in [0, 1]; and
an empty match list yields score `0.0` with an empty reason list. -/
theorem calculate_scam_score_spec (ms : List (ScamCategory × String)) :
    (calculate_scam_score ms).1 = specScamScore ms ∧
    0 ≤ (calculate_scam_score ms).1 ∧
    (calculate_scam_score ms).1 ≤ 1 ∧
    (ms = [] → calculate_scam_score ms = (0, [])) := by
  have hcount : ∀ c, (hitsIn (groupMatches ms) c).length =
      countOf c ms := by
    intro c
    rw [groupMatches, groupMatches_hitsIn ms [] c]
    simp [countOf, hitsIn]
  have hsum : ((groupMatches ms).map
      fun p => categoryContribution p.1 p.2.length).sum =
      (allScamCategories.map
        fun c => categoryContribution c (countOf c ms)).sum := by
    rw [sumContrib_eq _ (groupMatches_nodup ms)]
    simp only [hcount]
  have hspec : specScamScore ms =
      min ((allScamCategories.map
        fun c => categoryContribution c (countOf c ms)).sum) 1 := by
    rw [specScamScore, sum_filter_contrib]
  have hnonneg : 0 ≤ (allScamCategories.map
      fun c => categoryContribution c (countOf c ms)).sum := by
    refine List.sum_nonneg ?_
    intro x hx
    simp only [List.mem_map] at hx
    obtain ⟨c, _, rfl⟩ := hx
    exact categoryContribution_nonneg c _
  by_cases hemp : ms = []
  · subst hemp
    refine ⟨?_, by simp [calculate_scam_score], by simp [calculate_scam_score],
      fun _ => by simp [calculate_scam_score]⟩
    rw [hspec]
    simp only [calculate_scam_score, List.isEmpty_nil, if_pos rfl]
    have : ∀ c, countOf c ([] : List (ScamCategory × String)) = 0 := by
      intro c
      rfl
    simp [this, categoryContribution_zero, allScamCategories]
  · have hne : ¬ ms.isEmpty := by
      simpa [List.isEmpty_iff] using hemp
    have hcalc : (calculate_scam_score ms).1 =
        min ((groupMatches ms).map
          fun p => categoryContribution p.1 p.2.length).sum 1 := by
      simp only [calculate_scam_score, hne, if_false, Bool.false_eq_true]
    refine ⟨?_, ?_, ?_, fun h => absurd h hemp⟩
    · rw [hcalc, hspec, hsum]
    · rw [hcalc, hsum]
      exact le_min hnonneg (by norm_num)
    · rw [hcalc]
      exact min_le_right _ _

/-- Witness for C8: with no matches (e.g. empty text) the result is exactly
`(0.0, [])`. -/
theorem calculate_scam_score_spec_witness :
    calculate_scam_score [] = (0, []) ∧
    (calculate_scam_score []).1 = specScamScore [] :=
  ⟨(calculate_scam_score_spec []).2.2.2 rfl, (calculate_scam_score_spec []).1⟩

/-- C10: `predict`'s reported `scam_probability` equals the rule-based score:
the placeholder ML branch sets the ML score to the rule score whether or not
a model is loaded, and `rule * 0.6 + rule * 0.4 = rule`. -/
theorem predict_scam_probability_spec (model_loaded : Bool)
    (ms : List (ScamCategory × String)) :
    predict_scam_probability model_loaded ms =
      (calculate_scam_score ms).1 := by
  cases model_loaded <;>
    · simp only [predict_scam_probability, Bool.false_eq_true, if_false,
        if_true, ite_false, ite_true]
      ring

end GlobalTrustHub
